import Mathlib

/-!
Verification of the ScraperBot application (`src/main.py`).

The program is a single-file Streamlit chat application.  Its pure core is:
  * `scrape_website` — fetch a URL, keep the text of the `<p>` elements,
    normalise whitespace, and wrap the result in a `Document`;
  * `scrape_pdf` — extract the text of every page of an uploaded PDF,
    normalise whitespace, and wrap the result in a `Document`;
  * the `main` function — a per-rerun script over Streamlit session state
    (`scraped_data`, `chain`, `data`, `template`, `messages`), which we model
    as a transition function `rerun` on a `SessionState` record, with the
    externally observable effects collected in a `StepOut` record.

External collaborators (the HTTP client, the HTML parser, the PDF library,
the Groq inference endpoint) are modelled by their observed outcomes, passed
in as explicit inputs (`FetchResult`, `PdfResult`, `Except String String`).
-/

/-- Whitespace as recognised by Python 3 on `str`: the pattern `\s`, bare
`str.strip()` and `str.isspace()` all use the same Unicode predicate
(CPython's `Py_UNICODE_ISSPACE`).  The full set is U+0009–U+000D,
U+001C–U+001F, U+0020, U+0085, U+00A0 (no-break space, i.e. `&nbsp;`),
U+1680, U+2000–U+200A, U+2028, U+2029, U+202F, U+205F and U+3000. -/
def isWs (c : Char) : Bool :=
  (9 ≤ c.toNat && c.toNat ≤ 13) || (28 ≤ c.toNat && c.toNat ≤ 31) ||
  c.toNat = 32 || c.toNat = 133 || c.toNat = 160 || c.toNat = 0x1680 ||
  (0x2000 ≤ c.toNat && c.toNat ≤ 0x200A) || c.toNat = 0x2028 ||
  c.toNat = 0x2029 || c.toNat = 0x202F || c.toNat = 0x205F ||
  c.toNat = 0x3000

/-- Core of `re.sub(r'\s+', ' ', text)`: replace every maximal run of
whitespace by a single space.  The boolean argument records whether the
previous character belonged to a whitespace run already replaced. -/
def squeezeAux : Bool → List Char → List Char
  | _, [] => []
  | prevWs, c :: cs =>
    if isWs c then
      if prevWs then squeezeAux true cs
      else ' ' :: squeezeAux true cs
    else c :: squeezeAux false cs

/-- `re.sub(r'\s+', ' ', text)` on the underlying character list. -/
def squeezeWs (l : List Char) : List Char :=
  squeezeAux false l

/-- Python `str.strip()` on the underlying character list: drop whitespace
from both ends. -/
def stripWs (l : List Char) : List Char :=
  ((l.dropWhile isWs).reverse.dropWhile isWs).reverse

/-- `re.sub(r'\s+', ' ', text).strip()`, the normalisation applied by both
extractors (`src/main.py` lines 50 and 66). -/
def cleanText (s : String) : String :=
  String.mk (stripWs (squeezeWs s.data))

/-- Python `str.strip()` on a string. -/
def trimStr (s : String) : String :=
  String.mk (stripWs s.data)

/-- Python `' '.join(xs)`: the elements interleaved with single spaces. -/
def joinSp : List String → String
  | [] => ""
  | [s] => s
  | s :: rest => s ++ " " ++ joinSp rest

/-- `langchain_core.documents.Document` as used here: the normalised text
(`page_content`) plus the provenance recorded in `metadata["source"]`. -/
structure Document where
  page_content : String
  source : String
deriving DecidableEq, Repr

/-- Outcome of `requests.get(url)` + `raise_for_status()` + BeautifulSoup
paragraph collection, as seen by `scrape_website`:
  * `ok paragraphs` — the GET succeeded with a 2xx status and parsing the
    body found paragraph elements with these text contents
    (`[p.get_text() for p in soup.find_all('p')]`);
  * `exn msg` — `requests.get` or `raise_for_status` raised a
    `requests.RequestException` whose `str` is `msg`. -/
inductive FetchResult where
  | ok (paragraphs : List String)
  | exn (msg : String)
deriving DecidableEq, Repr

/-- `scrape_website` (`src/main.py` lines 44-59).  Returns the same
`(document, error)` pair as the Python function. -/
def scrape_website (url : String) (fetch : FetchResult) :
    Option Document × Option String :=
  match fetch with
  | .exn e => (none, some ("Error scraping the website: " ++ e))
  | .ok paragraphs =>
    let text := cleanText (joinSp paragraphs)
    if text = "" then
      (none, some "No meaningful content found on the page.")
    else
      (some { page_content := text, source := url }, none)

/-- Outcome of `pdfplumber.open(uploaded_file)` as seen by `scrape_pdf`:
  * `ok pages` — the file opened as a PDF; `pages` holds the result of
    `page.extract_text()` for each page (`none` models Python `None`);
  * `exn msg` — opening or reading raised an exception whose `str` is
    `msg`. -/
inductive PdfResult where
  | ok (pages : List (Option String))
  | exn (msg : String)
deriving DecidableEq, Repr

/-- `scrape_pdf` (`src/main.py` lines 62-75).  `page.extract_text() or ""`
is `Option.getD _ ""` (a `None` page contributes the empty string). -/
def scrape_pdf (fileName : String) (pdf : PdfResult) :
    Option Document × Option String :=
  match pdf with
  | .exn e => (none, some ("Error processing the PDF: " ++ e))
  | .ok pages =>
    let text := cleanText (joinSp (pages.map (fun p => p.getD "")))
    if text = "" then
      (none, some "No text found in the PDF.")
    else
      (some { page_content := text, source := fileName }, none)

/-- The character list of the regex open delimiter `<think>`. -/
def openTag : List Char :=
  "<think>".data

/-- The character list of the regex close delimiter `</think>`. -/
def closeTag : List Char :=
  "</think>".data

/-- Scan for the first occurrence of `</think>` and drop everything up to
and including it, returning the remainder; `none` when the close delimiter
does not occur.  This is the search the non-greedy `.*?</think>` (with
`re.DOTALL`) performs after an `<think>` has been matched. -/
def dropThroughClose : List Char → Option (List Char)
  | [] => none
  | c :: cs =>
    if closeTag.isPrefixOf (c :: cs) then some ((c :: cs).drop closeTag.length)
    else dropThroughClose cs

/-- One left-to-right pass of `re.sub(r"<think>.*?</think>", "", raw,
flags=re.DOTALL)`: at each position, if `<think>` matches and a `</think>`
occurs later, delete through the close delimiter and continue after it;
otherwise keep the character and move on.  `fuel` is an upper bound on the
number of steps (each step consumes at least one character), making the
recursion structural. -/
def removeThinkAux : Nat → List Char → List Char
  | 0, l => l
  | _ + 1, [] => []
  | fuel + 1, c :: cs =>
    if openTag.isPrefixOf (c :: cs) then
      match dropThroughClose ((c :: cs).drop openTag.length) with
      | some rest => removeThinkAux fuel rest
      | none => c :: removeThinkAux fuel cs
    else c :: removeThinkAux fuel cs

/-- `re.sub(r"<think>.*?</think>", "", raw, flags=re.DOTALL)` on the
underlying character list. -/
def removeThink (l : List Char) : List Char :=
  removeThinkAux l.length l

/-- `re.sub(r"<think>.*?</think>", "", raw_answer, flags=re.DOTALL).strip()`
(`src/main.py` line 190). -/
def answer_no_think (raw : String) : String :=
  String.mk (stripWs (removeThink raw.data))

/-- `pat` occurs as a contiguous segment of `l` (decidable scan). -/
def hasSeg (pat : List Char) : List Char → Bool
  | [] => pat.isPrefixOf ([] : List Char)
  | c :: cs => pat.isPrefixOf (c :: cs) || hasSeg pat cs

/-- A raw model response assembled from alternating visible text and
delimited internal-reasoning ("thinking") blocks, ending with a visible
tail: each pair `(v, t)` contributes `v ++ "<think>" ++ t ++ "</think>"`. -/
def renderSegs : List (String × String) → String → String
  | [], tail => tail
  | (v, t) :: rest, tail => v ++ "<think>" ++ t ++ "</think>" ++ renderSegs rest tail

/-- The visible part of the same response: the thinking blocks erased. -/
def visibleSegs : List (String × String) → String → String
  | [], tail => tail
  | (v, _) :: rest, tail => v ++ visibleSegs rest tail

/-- A chat message as stored in `st.session_state.messages`:
`{"role": ..., "content": ...}`. -/
structure Message where
  role : String
  content : String
deriving DecidableEq, Repr

/-- The Streamlit session state used by `main` (`src/main.py` lines
107-117).  `chain` models the initialised Groq chain by the API key it was
built from (`none` models Python `None`). -/
structure SessionState where
  scraped_data : Option Document
  chain : Option String
  data : Option Document
  template : Option String
  messages : List Message
deriving DecidableEq, Repr

/-- The session state at session start, and after "Clear Everything". -/
def initialState : SessionState :=
  { scraped_data := none, chain := none, data := none, template := none,
    messages := [] }

/-- The message of the `ValueError` raised by `initialize_groq_chain` when
the `key` environment variable is absent (`src/main.py` line 32). -/
def apiKeyErrMsg : String :=
  "API key not found. Please ensure 'key' is set in your .env file as 'key=your_api_key_here'."

/-- `initialize_groq_chain` (`src/main.py` lines 13-41), modelled by its
observable outcome: reading the `key` environment variable either raises a
`ValueError` (absent key) or yields a chain, which we represent by the key
it closes over. -/
def initialize_groq_chain (envKey : Option String) : Except String String :=
  match envKey with
  | none => Except.error apiKeyErrMsg
  | some k => Except.ok k

/-- The prompt template string of `initialize_chain`
(`src/main.py` lines 79-86). -/
def promptTemplate : String :=
  "\n    You are an AI-powered chatbot that only has information from the context provided below.\n    If the answer to a question cannot be found in the context, do not guess or provide additional details.\n    Instead, respond with: \"I'm sorry, I can only provide information based on the scraped content.\"\n\n    Context: {context}\n    Question: {question}\n    "

/-- `initialize_chain` (`src/main.py` lines 78-87): returns the scraped
data unchanged together with the fixed template. -/
def initialize_chain (scraped_data : Document) : Document × String :=
  (scraped_data, promptTemplate)

/-- One left-to-right pass of `str.format` over a template using the two
field names of this program: each `\x7bcontext\x7d` / `\x7bquestion\x7d`
placeholder found in the template itself is replaced by the corresponding
value.  Inserted values are appended without rescanning, as `str.format`
substitutes only the fields of the template. -/
def formatScanAux (ctx q : String) : Nat → List Char → List Char
  | 0, l => l
  | _ + 1, [] => []
  | fuel + 1, c :: rest =>
    if ("\x7bcontext\x7d".data).isPrefixOf (c :: rest) then
      ctx.data ++ formatScanAux ctx q fuel ((c :: rest).drop 9)
    else if ("\x7bquestion\x7d".data).isPrefixOf (c :: rest) then
      q.data ++ formatScanAux ctx q fuel ((c :: rest).drop 10)
    else c :: formatScanAux ctx q fuel rest

/-- `template.format(context=..., question=...)` (`src/main.py` lines
182-185).  The fuel bounds the number of scan steps; each step consumes at
least one template character. -/
def formatPrompt (tmpl ctx q : String) : String :=
  String.mk (formatScanAux ctx q tmpl.data.length tmpl.data)

/-- One user interaction driving a Streamlit rerun of `main`:
  * `clear` — the "Clear Everything" button;
  * `scrapeUrl` — the "Scrape Website" button with a non-empty URL, the
    external fetch outcome given by `fetch`;
  * `processPdf` — the "Process PDF" button with an uploaded file, the
    external parse outcome given by `pdf`;
  * `ask` — a chat submission, the inference outcome given by `infer`
    (`Except.error e` models `chain.invoke` raising);
  * `idle` — a rerun with no triggering widget event. -/
inductive UAction where
  | clear
  | scrapeUrl (url : String) (fetch : FetchResult)
  | processPdf (fileName : String) (pdf : PdfResult)
  | ask (q : String) (infer : Except String String)
  | idle

/-- The externally observable outcome of one rerun of `main`:
the session state afterwards, the `st.error` messages shown, the prompts
sent to the inference endpoint via `chain.invoke`, the number of extraction
attempts performed (`requests.get` / `pdfplumber.open`), the assistant
answers written to the chat, any exception that escaped `main`, and whether
the chat interface was rendered. -/
structure StepOut where
  state : SessionState
  errorsShown : List String
  promptsSent : List String
  extractions : Nat
  answersShown : List String
  uncaughtExn : Option String
  chatShown : Bool
deriving Repr

/-- The body of `main` after the chain has been initialised
(`src/main.py` lines 127-196): the "Clear Everything" button, the two
extraction branches, and the chat section guarded by
`if st.session_state.scraped_data:`.  Precondition of every call: `s.chain`
is set (the caller `rerun` guarantees it). -/
def runBody (s : SessionState) (act : UAction) : StepOut :=
  match act with
  | .clear =>
    { state := initialState, errorsShown := [], promptsSent := [],
      extractions := 0, answersShown := [], uncaughtExn := none,
      chatShown := false }
  | .scrapeUrl url fetch =>
    match scrape_website url fetch with
    | (_, some e) =>
      { state := s, errorsShown := [e], promptsSent := [], extractions := 1,
        answersShown := [], uncaughtExn := none,
        chatShown := s.scraped_data.isSome }
    | (some d, none) =>
      let s2 := { s with scraped_data := some d,
                         data := some (initialize_chain d).1,
                         template := some (initialize_chain d).2 }
      { state := s2, errorsShown := [], promptsSent := [], extractions := 1,
        answersShown := [], uncaughtExn := none, chatShown := true }
    | (none, none) =>
      { state := s, errorsShown := [], promptsSent := [], extractions := 1,
        answersShown := [], uncaughtExn := none,
        chatShown := s.scraped_data.isSome }
  | .processPdf fileName pdf =>
    match scrape_pdf fileName pdf with
    | (_, some e) =>
      { state := s, errorsShown := [e], promptsSent := [], extractions := 1,
        answersShown := [], uncaughtExn := none,
        chatShown := s.scraped_data.isSome }
    | (some d, none) =>
      let s2 := { s with scraped_data := some d,
                         data := some (initialize_chain d).1,
                         template := some (initialize_chain d).2 }
      { state := s2, errorsShown := [], promptsSent := [], extractions := 1,
        answersShown := [], uncaughtExn := none, chatShown := true }
    | (none, none) =>
      { state := s, errorsShown := [], promptsSent := [], extractions := 1,
        answersShown := [], uncaughtExn := none,
        chatShown := s.scraped_data.isSome }
  | .ask q infer =>
    if s.scraped_data.isSome then
      if q = "" then
        { state := s, errorsShown := [], promptsSent := [], extractions := 0,
          answersShown := [], uncaughtExn := none, chatShown := true }
      else
        let s1 := { s with messages := s.messages ++ [{ role := "user", content := q }] }
        match s.template, s.data with
        | some tmpl, some d =>
          let prompt := formatPrompt tmpl d.page_content q
          match infer with
          | .error e =>
            { state := s1, errorsShown := [], promptsSent := [prompt],
              extractions := 0, answersShown := [], uncaughtExn := some e,
              chatShown := true }
          | .ok raw =>
            let ans := answer_no_think raw
            { state := { s1 with
                messages := s1.messages ++ [{ role := "assistant", content := ans }] },
              errorsShown := [], promptsSent := [prompt], extractions := 0,
              answersShown := [ans], uncaughtExn := none, chatShown := true }
        | _, _ =>
          { state := s1, errorsShown := [], promptsSent := [],
            extractions := 0, answersShown := [],
            uncaughtExn := some "AttributeError", chatShown := true }
    else
      { state := s, errorsShown := [], promptsSent := [], extractions := 0,
        answersShown := [], uncaughtExn := none, chatShown := false }
  | .idle =>
    { state := s, errorsShown := [], promptsSent := [], extractions := 0,
      answersShown := [], uncaughtExn := none,
      chatShown := s.scraped_data.isSome }

/-- One rerun of `main` (`src/main.py` lines 89-196): first the chain is
initialised when `st.session_state.chain` is `None` (lines 120-125) — on a
missing key the error is shown and `main` returns before any widget is
rendered — then the body runs. -/
def rerun (s : SessionState) (envKey : Option String) (act : UAction) : StepOut :=
  match s.chain with
  | none =>
    match initialize_groq_chain envKey with
    | .error e =>
      { state := s, errorsShown := [e], promptsSent := [], extractions := 0,
        answersShown := [], uncaughtExn := none, chatShown := false }
    | .ok k => runBody { s with chain := some k } act
  | some _ => runBody s act

/-- The session states reachable from a fresh session by reruns. -/
inductive Reachable : SessionState → Prop
  | init : Reachable initialState
  | step (s : SessionState) (envKey : Option String) (act : UAction) :
      Reachable s → Reachable (rerun s envKey act).state

/-- A sample extracted document, used as concrete witness input. -/
def sampleDoc : Document :=
  { page_content := "The sky is blue.", source := "https://example.com" }

/-- A sample `Ready` session state (document set, chain initialised), used
as concrete witness input. -/
def readyState : SessionState :=
  { scraped_data := some sampleDoc, chain := some "k", data := some sampleDoc,
    template := some promptTemplate, messages := [] }

theorem isWs_space : isWs ' ' = true := rfl

theorem squeezeAux_countP (b : Bool) (l : List Char) :
    (squeezeAux b l).countP (fun c => !isWs c) = l.countP (fun c => !isWs c) := by
  induction l generalizing b with
  | nil => rfl
  | cons c cs ih =>
    by_cases h : isWs c
    · cases b <;> simp [squeezeAux, h, List.countP_cons, ih, isWs_space]
    · simp [squeezeAux, h, List.countP_cons, ih]

theorem dropWhile_countP_ws (l : List Char) :
    (l.dropWhile isWs).countP (fun c => !isWs c) = l.countP (fun c => !isWs c) := by
  have hsplit : l.takeWhile isWs ++ l.dropWhile isWs = l :=
    List.takeWhile_append_dropWhile isWs l
  have h0 : (l.takeWhile isWs).countP (fun c => !isWs c) = 0 := by
    rw [List.countP_eq_zero]
    intro a ha
    have hws := List.mem_takeWhile_imp ha
    simp [hws]
  conv_rhs => rw [← hsplit]
  rw [List.countP_append, h0]
  omega

theorem stripWs_countP (l : List Char) :
    (stripWs l).countP (fun c => !isWs c) = l.countP (fun c => !isWs c) := by
  unfold stripWs
  rw [List.countP_reverse, dropWhile_countP_ws, List.countP_reverse,
    dropWhile_countP_ws]

theorem cleanText_countP (s : String) :
    (cleanText s).data.countP (fun c => !isWs c)
      = s.data.countP (fun c => !isWs c) := by
  show (stripWs (squeezeWs s.data)).countP _ = _
  rw [stripWs_countP]
  unfold squeezeWs
  rw [squeezeAux_countP]

theorem cleanText_ne_empty {s : String} (h : ∃ c ∈ s.data, ¬ isWs c) :
    cleanText s ≠ "" := by
  intro he
  obtain ⟨c, hc, hnw⟩ := h
  have hpos : 0 < s.data.countP (fun c => !isWs c) :=
    List.countP_pos_iff.mpr ⟨c, hc, by simp [Bool.not_eq_true] at hnw ⊢; exact hnw⟩
  have h2 := cleanText_countP s
  rw [he] at h2
  have hnil : ("" : String).data = [] := rfl
  rw [hnil, List.countP_nil] at h2
  omega

theorem mem_joinSp {ps : List String} {p : String} (hp : p ∈ ps) {c : Char}
    (hc : c ∈ p.data) : c ∈ (joinSp ps).data := by
  induction ps with
  | nil => cases hp
  | cons s rest ih =>
    cases rest with
    | nil =>
      rcases List.mem_singleton.mp hp with rfl
      simpa [joinSp] using hc
    | cons r1 r2 =>
      rcases List.mem_cons.mp hp with rfl | hp'
      · simp only [joinSp, String.data_append, List.mem_append]
        exact Or.inl (Or.inl hc)
      · simp only [joinSp, String.data_append, List.mem_append]
        exact Or.inr (ih hp')

theorem joinSp_all_ws {ps : List String}
    (h : ∀ p ∈ ps, ∀ c ∈ p.data, isWs c = true) :
    ∀ c ∈ (joinSp ps).data, isWs c = true := by
  induction ps with
  | nil => intro c hc; cases hc
  | cons s rest ih =>
    cases rest with
    | nil =>
      intro c hc
      exact h s (by simp) c (by simpa [joinSp] using hc)
    | cons r1 r2 =>
      intro c hc
      simp only [joinSp, String.data_append, List.mem_append] at hc
      rcases hc with (hc | hc) | hc
      · exact h s (by simp) c hc
      · have : c = ' ' := by simpa using hc
        rw [this]
        rfl
      · exact ih (fun p hp => h p (List.mem_cons_of_mem s hp)) c hc

theorem squeezeAux_all_ws {l : List Char} (h : ∀ c ∈ l, isWs c = true) :
    squeezeAux true l = [] := by
  induction l with
  | nil => rfl
  | cons c cs ih =>
    simp [squeezeAux, h c (by simp),
      ih (fun x hx => h x (List.mem_cons_of_mem c hx))]

theorem cleanText_all_ws {s : String} (h : ∀ c ∈ s.data, isWs c = true) :
    cleanText s = "" := by
  show String.mk (stripWs (squeezeAux false s.data)) = ""
  cases hd : s.data with
  | nil => rfl
  | cons c cs =>
    have hc : isWs c = true := h c (by rw [hd]; simp)
    have hcs : squeezeAux true cs = [] :=
      squeezeAux_all_ws (fun x hx => h x (by rw [hd]; exact List.mem_cons_of_mem c hx))
    simp [squeezeAux, hc, hcs]
    rfl

/-- C1 is false as stated: the page with the single paragraph `<p> </p>`
has a non-empty paragraph element (its text `" "` is not the empty string)
and its HTTP GET succeeds, yet web extraction does not return a Document —
it returns the "no meaningful content" error, because the whitespace-only
text collapses to the empty string. -/
theorem c1_counterexample :
    ¬ ((" " : String) = "") ∧
    scrape_website "https://example.com" (FetchResult.ok [" "]) =
      (none, some "No meaningful content found on the page.") := by
  decide

/-- C1 (amended): for every URL whose HTTP GET succeeds and whose HTML
contains at least one paragraph whose text contains a non-whitespace
character, web extraction succeeds and returns a Document whose content
equals the texts of all paragraph elements joined with single spaces, runs
of whitespace collapsed to one space and the result trimmed, and whose
source equals the input URL. -/
theorem c1_web_success (url : String) (ps : List String)
    (h : ∃ p ∈ ps, ∃ c ∈ p.data, ¬ isWs c) :
    scrape_website url (FetchResult.ok ps) =
      (some { page_content := cleanText (joinSp ps), source := url }, none) := by
  obtain ⟨p, hp, c, hc, hnw⟩ := h
  have hne : cleanText (joinSp ps) ≠ "" :=
    cleanText_ne_empty ⟨c, mem_joinSp hp hc, hnw⟩
  simp [scrape_website, hne]

/-- C1 witness: the spec's own example.  A page serving
`<p>The sky is blue.</p><p></p>` yields the paragraph texts
`["The sky is blue.", ""]`, and extraction returns a Document whose content
is exactly `"The sky is blue."` and whose source is the URL. -/
theorem c1_witness :
    (∃ p ∈ ["The sky is blue.", ""], ∃ c ∈ p.data, ¬ isWs c) ∧
    scrape_website "https://example.com" (FetchResult.ok ["The sky is blue.", ""]) =
      (some { page_content := "The sky is blue.", source := "https://example.com" },
        none) := by
  refine ⟨by decide, ?_⟩
  rw [c1_web_success "https://example.com" ["The sky is blue.", ""] (by decide)]
  decide

/-- C8: for every HTML response whose paragraph elements are absent or
contain only whitespace, web extraction returns the
"No meaningful content found on the page." error, and the session keeps its
previous document (no Document is created or stored). -/
theorem c8_web_no_content (url : String) (ps : List String)
    (h : ∀ p ∈ ps, ∀ c ∈ p.data, isWs c = true) :
    scrape_website url (FetchResult.ok ps) =
      (none, some "No meaningful content found on the page.") ∧
    ∀ (s : SessionState) (envKey : Option String),
      (rerun s envKey (UAction.scrapeUrl url (FetchResult.ok ps))).state.scraped_data
        = s.scraped_data := by
  have hempty : cleanText (joinSp ps) = "" := cleanText_all_ws (joinSp_all_ws h)
  have hscrape : scrape_website url (FetchResult.ok ps) =
      (none, some "No meaningful content found on the page.") := by
    simp [scrape_website, hempty]
  refine ⟨hscrape, ?_⟩
  intro s envKey
  cases hch : s.chain with
  | none =>
    cases envKey with
    | none => simp [rerun, hch, initialize_groq_chain]
    | some k => simp [rerun, hch, initialize_groq_chain, runBody, hscrape]
  | some k => simp [rerun, hch, runBody, hscrape]

/-- C8 witness: a page whose paragraphs are `" "` and `""` produces the
"no meaningful content" error, and a scrape of it from the initial session
leaves the stored document unchanged. -/
theorem c8_witness :
    (∀ p ∈ [" ", ""], ∀ c ∈ p.data, isWs c = true) ∧
    scrape_website "https://example.com" (FetchResult.ok [" ", ""]) =
      (none, some "No meaningful content found on the page.") ∧
    (rerun initialState (some "k")
        (UAction.scrapeUrl "https://example.com" (FetchResult.ok [" ", ""]))).state.scraped_data
      = initialState.scraped_data := by
  refine ⟨by decide, ?_, ?_⟩
  · exact (c8_web_no_content "https://example.com" [" ", ""] (by decide)).1
  · exact (c8_web_no_content "https://example.com" [" ", ""] (by decide)).2
      initialState (some "k")

/-- C4: for every PDF with at least one page whose extracted text contains
a non-whitespace character, PDF extraction succeeds and returns a Document
whose content is the per-page extracted texts (empty string substituted for
pages yielding none) joined with spaces, whitespace-collapsed and trimmed,
and whose source is the uploaded file's name; for an all-blank PDF (every
page yields no text or only whitespace), extraction returns the error
"No text found in the PDF." and no Document. -/
theorem c4_pdf_extraction (fileName : String) (pages : List (Option String)) :
    ((∃ t ∈ pages, ∃ c ∈ (t.getD "").data, ¬ isWs c) →
      scrape_pdf fileName (PdfResult.ok pages) =
        (some { page_content := cleanText (joinSp (pages.map (fun p => p.getD ""))),
                source := fileName }, none)) ∧
    ((∀ t ∈ pages, ∀ c ∈ (t.getD "").data, isWs c = true) →
      scrape_pdf fileName (PdfResult.ok pages) =
        (none, some "No text found in the PDF.")) := by
  constructor
  · rintro ⟨t, ht, c, hc, hnw⟩
    have hmem : t.getD "" ∈ pages.map (fun p => p.getD "") :=
      List.mem_map.mpr ⟨t, ht, rfl⟩
    have hne := cleanText_ne_empty ⟨c, mem_joinSp hmem hc, hnw⟩
    simp [scrape_pdf, hne]
  · intro h
    have hall : ∀ p ∈ pages.map (fun p => p.getD ""), ∀ c ∈ p.data, isWs c = true := by
      intro p hp c hc
      obtain ⟨t, ht, rfl⟩ := List.mem_map.mp hp
      exact h t ht c hc
    have hempty := cleanText_all_ws (joinSp_all_ws hall)
    simp [scrape_pdf, hempty]

/-- C4 witness: a two-page PDF whose first page yields `"Hello PDF"`
extracts to the Document `⟨"Hello PDF", "doc.pdf"⟩`, while a PDF whose
pages yield nothing and `" "` produces the "No text found in the PDF."
error. -/
theorem c4_witness :
    (∃ t ∈ [some "Hello PDF", none], ∃ c ∈ (t.getD "").data, ¬ isWs c) ∧
    scrape_pdf "doc.pdf" (PdfResult.ok [some "Hello PDF", none]) =
      (some { page_content := "Hello PDF", source := "doc.pdf" }, none) ∧
    (∀ t ∈ ([none, some " "] : List (Option String)),
      ∀ c ∈ (t.getD "").data, isWs c = true) ∧
    scrape_pdf "blank.pdf" (PdfResult.ok [none, some " "]) =
      (none, some "No text found in the PDF.") := by
  refine ⟨by decide, ?_, by decide, ?_⟩
  · rw [(c4_pdf_extraction "doc.pdf" [some "Hello PDF", none]).1 (by decide)]
    decide
  · exact (c4_pdf_extraction "blank.pdf" [none, some " "]).2 (by decide)

theorem runBody_chain (s : SessionState) (act : UAction) (h : s.chain.isSome) :
    (runBody s act).state.chain.isSome ∨ (runBody s act).state = initialState := by
  cases act with
  | clear => right; simp [runBody]
  | scrapeUrl url fetch =>
    left
    rcases hs : scrape_website url fetch with ⟨d, e⟩
    cases e <;> cases d <;> simp [runBody, hs, h]
  | processPdf fileName pdf =>
    left
    rcases hs : scrape_pdf fileName pdf with ⟨d, e⟩
    cases e <;> cases d <;> simp [runBody, hs, h]
  | ask q infer =>
    left
    cases hdoc : s.scraped_data.isSome with
    | false => simp [runBody, hdoc, h]
    | true =>
      by_cases hq : q = ""
      · simp [runBody, hdoc, hq, h]
      · cases htm : s.template with
        | none => simp [runBody, hdoc, hq, htm, h]
        | some tmpl =>
          cases hda : s.data with
          | none => simp [runBody, hdoc, hq, htm, hda, h]
          | some d =>
            cases infer with
            | error e => simp [runBody, hdoc, hq, htm, hda, h]
            | ok raw => simp [runBody, hdoc, hq, htm, hda, h]
  | idle => left; simp [runBody, h]

theorem runBody_chatShown (s : SessionState) (act : UAction) :
    (runBody s act).chatShown = (runBody s act).state.scraped_data.isSome := by
  cases act with
  | clear => simp [runBody, initialState]
  | scrapeUrl url fetch =>
    rcases hs : scrape_website url fetch with ⟨d, e⟩
    cases e <;> cases d <;> simp [runBody, hs]
  | processPdf fileName pdf =>
    rcases hs : scrape_pdf fileName pdf with ⟨d, e⟩
    cases e <;> cases d <;> simp [runBody, hs]
  | ask q infer =>
    cases hdoc : s.scraped_data.isSome with
    | false => simp [runBody, hdoc]
    | true =>
      by_cases hq : q = ""
      · simp [runBody, hdoc, hq]
      · cases htm : s.template with
        | none => simp [runBody, hdoc, hq, htm]
        | some tmpl =>
          cases hda : s.data with
          | none => simp [runBody, hdoc, hq, htm, hda]
          | some d =>
            cases infer with
            | error e => simp [runBody, hdoc, hq, htm, hda]
            | ok raw => simp [runBody, hdoc, hq, htm, hda]
  | idle => simp [runBody]

theorem rerun_doc_chain_inv (s : SessionState) (envKey : Option String)
    (act : UAction) (h : s.scraped_data.isSome → s.chain.isSome) :
    (rerun s envKey act).state.scraped_data.isSome →
      (rerun s envKey act).state.chain.isSome := by
  cases hch : s.chain with
  | none =>
    cases envKey with
    | none =>
      have hst : (rerun s none act).state = s := by
        simp [rerun, hch, initialize_groq_chain]
      rw [hst]
      exact h
    | some k =>
      have hst : rerun s (some k) act = runBody { s with chain := some k } act := by
        simp [rerun, hch, initialize_groq_chain]
      rw [hst]
      rcases runBody_chain { s with chain := some k } act (by simp) with hc | hi
      · exact fun _ => hc
      · rw [hi]; intro hd; simp [initialState] at hd
  | some k =>
    have hst : rerun s envKey act = runBody s act := by simp [rerun, hch]
    rw [hst]
    rcases runBody_chain s act (by simp [hch]) with hc | hi
    · exact fun _ => hc
    · rw [hi]; intro hd; simp [initialState] at hd

theorem reachable_doc_chain {s : SessionState} (h : Reachable s) :
    s.scraped_data.isSome → s.chain.isSome := by
  induction h with
  | init => simp [initialState]
  | step s envKey act hr ih => exact rerun_doc_chain_inv s envKey act ih

/-- C2: at every reachable point in a session, after any rerun the chat
interface is shown exactly when the stored document is non-null; and when
the stored document is null, an attempted chat submission changes nothing —
no prompt is sent to the inference client and the history is unchanged. -/
theorem c2_chat_iff_document (s : SessionState) (envKey : Option String)
    (act : UAction) (hs : Reachable s) :
    ((rerun s envKey act).chatShown
        = (rerun s envKey act).state.scraped_data.isSome) ∧
    ∀ q infer, act = UAction.ask q infer → s.scraped_data = none →
      (rerun s envKey act).promptsSent = [] ∧
      (rerun s envKey act).state.messages = s.messages := by
  constructor
  · cases hch : s.chain with
    | none =>
      cases envKey with
      | none =>
        have hnone : s.scraped_data.isSome = false := by
          cases hd : s.scraped_data.isSome with
          | false => rfl
          | true =>
            have h2 := reachable_doc_chain hs hd
            rw [hch] at h2
            simp at h2
        simp [rerun, hch, initialize_groq_chain, hnone]
      | some k =>
        have hst : rerun s (some k) act = runBody { s with chain := some k } act := by
          simp [rerun, hch, initialize_groq_chain]
        rw [hst, runBody_chatShown]
    | some k =>
      have hst : rerun s envKey act = runBody s act := by simp [rerun, hch]
      rw [hst, runBody_chatShown]
  · rintro q infer rfl hdoc
    cases hch : s.chain with
    | none =>
      cases envKey with
      | none => simp [rerun, hch, initialize_groq_chain]
      | some k => simp [rerun, hch, initialize_groq_chain, runBody, hdoc]
    | some k => simp [rerun, hch, runBody, hdoc]

/-- C2 witness: from the initial (empty) session, a chat submission sends
no prompt, leaves the history unchanged, and the chat surface reflects the
(null) document. -/
theorem c2_witness :
    ((rerun initialState (some "k") (UAction.ask "hi" (Except.ok "yes"))).chatShown
        = (rerun initialState (some "k")
            (UAction.ask "hi" (Except.ok "yes"))).state.scraped_data.isSome) ∧
    (rerun initialState (some "k") (UAction.ask "hi" (Except.ok "yes"))).promptsSent = [] ∧
    (rerun initialState (some "k")
        (UAction.ask "hi" (Except.ok "yes"))).state.messages = initialState.messages := by
  have h := c2_chat_iff_document initialState (some "k")
    (UAction.ask "hi" (Except.ok "yes")) Reachable.init
  exact ⟨h.1, (h.2 "hi" (Except.ok "yes") rfl rfl).1, (h.2 "hi" (Except.ok "yes") rfl rfl).2⟩

/-- C3: the clear-all action, performed from any session state in which the
button is reachable (the chain is initialised or the key is available so
initialisation succeeds), transitions the session to the empty state: the
document is null and the chat history is the empty sequence. -/
theorem c3_clear_all (s : SessionState) (envKey : Option String)
    (h : s.chain.isSome ∨ envKey.isSome) :
    (rerun s envKey UAction.clear).state.scraped_data = none ∧
    (rerun s envKey UAction.clear).state.messages = [] := by
  cases hch : s.chain with
  | some k => simp [rerun, hch, runBody, initialState]
  | none =>
    cases henv : envKey with
    | some k => simp [rerun, hch, henv, initialize_groq_chain, runBody, initialState]
    | none => rcases h with h | h <;> simp [hch, henv] at h

/-- C3 witness: clearing from a Ready state with non-empty history empties
both the document and the history. -/
theorem c3_witness :
    (({ readyState with messages := [{ role := "user", content := "hi" }] } : SessionState).chain.isSome
        ∨ (none : Option String).isSome) ∧
    (rerun { readyState with messages := [{ role := "user", content := "hi" }] }
        none UAction.clear).state.scraped_data = none ∧
    (rerun { readyState with messages := [{ role := "user", content := "hi" }] }
        none UAction.clear).state.messages = [] := by
  refine ⟨Or.inl rfl, ?_⟩
  exact c3_clear_all _ none (Or.inl rfl)

/-- C5: if the configured API key is absent from the environment and the
chain is uninitialised, every rerun reports the configuration error,
performs no extraction and no inference, and leaves the state untouched —
`main` returns before any other action is possible. -/
theorem c5_missing_key (s : SessionState) (act : UAction) (h : s.chain = none) :
    (rerun s none act).errorsShown = [apiKeyErrMsg] ∧
    (rerun s none act).extractions = 0 ∧
    (rerun s none act).promptsSent = [] ∧
    (rerun s none act).state = s := by
  simp [rerun, h, initialize_groq_chain]

/-- C5 witness: with no key in the environment, a scrape attempt from a
fresh session shows the configuration error and does nothing else. -/
theorem c5_witness :
    initialState.chain = none ∧
    (rerun initialState none (UAction.scrapeUrl "u" (FetchResult.ok ["hello"]))).errorsShown
      = [apiKeyErrMsg] ∧
    (rerun initialState none (UAction.scrapeUrl "u" (FetchResult.ok ["hello"]))).extractions = 0 ∧
    (rerun initialState none (UAction.scrapeUrl "u" (FetchResult.ok ["hello"]))).promptsSent = [] ∧
    (rerun initialState none (UAction.scrapeUrl "u" (FetchResult.ok ["hello"]))).state
      = initialState := by
  refine ⟨rfl, ?_⟩
  exact c5_missing_key initialState (UAction.scrapeUrl "u" (FetchResult.ok ["hello"])) rfl

/-- C6: whenever an extraction attempt fails — network failure, empty
content, or parse failure, i.e. whenever the scraping function reports an
error — the rerun surfaces that error message to the user, no exception
escapes `main`, and the session's document and history are unchanged.
Stated for both the web and the PDF extraction paths. -/
theorem c6_extraction_error_surfaced (s : SessionState) (envKey : Option String)
    (url : String) (fetch : FetchResult) (fileName : String) (pdf : PdfResult)
    (e e' : String)
    (hw : (scrape_website url fetch).2 = some e)
    (hp : (scrape_pdf fileName pdf).2 = some e')
    (hinit : s.chain.isSome ∨ envKey.isSome) :
    ((rerun s envKey (UAction.scrapeUrl url fetch)).state.scraped_data = s.scraped_data ∧
     (rerun s envKey (UAction.scrapeUrl url fetch)).state.messages = s.messages ∧
     (rerun s envKey (UAction.scrapeUrl url fetch)).errorsShown = [e] ∧
     (rerun s envKey (UAction.scrapeUrl url fetch)).uncaughtExn = none) ∧
    ((rerun s envKey (UAction.processPdf fileName pdf)).state.scraped_data = s.scraped_data ∧
     (rerun s envKey (UAction.processPdf fileName pdf)).state.messages = s.messages ∧
     (rerun s envKey (UAction.processPdf fileName pdf)).errorsShown = [e'] ∧
     (rerun s envKey (UAction.processPdf fileName pdf)).uncaughtExn = none) := by
  rcases hw2 : scrape_website url fetch with ⟨d1, e1⟩
  rw [hw2] at hw
  simp only at hw
  subst hw
  rcases hp2 : scrape_pdf fileName pdf with ⟨d2, e2⟩
  rw [hp2] at hp
  simp only at hp
  subst hp
  cases hch : s.chain with
  | some k => simp [rerun, hch, runBody, hw2, hp2]
  | none =>
    cases henv : envKey with
    | some k => simp [rerun, hch, henv, initialize_groq_chain, runBody, hw2, hp2]
    | none => rcases hinit with h | h <;> simp [hch, henv] at h

/-- C6 witness: a network failure on the web path and a parse failure on
the PDF path are both surfaced as error messages, with document and
history untouched. -/
theorem c6_witness :
    (scrape_website "https://example.com" (FetchResult.exn "timeout")).2
      = some "Error scraping the website: timeout" ∧
    (scrape_pdf "doc.pdf" (PdfResult.exn "bad header")).2
      = some "Error processing the PDF: bad header" ∧
    (readyState.chain.isSome ∨ (none : Option String).isSome) ∧
    (rerun readyState none
        (UAction.scrapeUrl "https://example.com" (FetchResult.exn "timeout"))).state.scraped_data
      = readyState.scraped_data ∧
    (rerun readyState none
        (UAction.scrapeUrl "https://example.com" (FetchResult.exn "timeout"))).errorsShown
      = ["Error scraping the website: timeout"] ∧
    (rerun readyState none
        (UAction.processPdf "doc.pdf" (PdfResult.exn "bad header"))).state.messages
      = readyState.messages ∧
    (rerun readyState none
        (UAction.processPdf "doc.pdf" (PdfResult.exn "bad header"))).uncaughtExn = none := by
  have h := c6_extraction_error_surfaced readyState none "https://example.com"
    (FetchResult.exn "timeout") "doc.pdf" (PdfResult.exn "bad header")
    "Error scraping the website: timeout" "Error processing the PDF: bad header"
    rfl rfl (Or.inl rfl)
  exact ⟨rfl, rfl, Or.inl rfl, h.1.1, h.1.2.2.1, h.2.2.1, h.2.2.2.2⟩

/-- C9: a successful extraction from any session state (Empty or Ready)
replaces the stored document wholesale but leaves the chat history exactly
as it was before the extraction.  Stated for both the web and the PDF
extraction paths. -/
theorem c9_success_keeps_history (s : SessionState) (envKey : Option String)
    (url : String) (fetch : FetchResult) (fileName : String) (pdf : PdfResult)
    (d d' : Document)
    (hw : scrape_website url fetch = (some d, none))
    (hp : scrape_pdf fileName pdf = (some d', none))
    (hinit : s.chain.isSome ∨ envKey.isSome) :
    ((rerun s envKey (UAction.scrapeUrl url fetch)).state.messages = s.messages ∧
     (rerun s envKey (UAction.scrapeUrl url fetch)).state.scraped_data = some d) ∧
    ((rerun s envKey (UAction.processPdf fileName pdf)).state.messages = s.messages ∧
     (rerun s envKey (UAction.processPdf fileName pdf)).state.scraped_data = some d') := by
  cases hch : s.chain with
  | some k => simp [rerun, hch, runBody, hw, hp]
  | none =>
    cases henv : envKey with
    | some k => simp [rerun, hch, henv, initialize_groq_chain, runBody, hw, hp]
    | none => rcases hinit with h | h <;> simp [hch, henv] at h

/-- C9 witness: a successful re-extraction from a Ready state with
non-empty history keeps the old history and replaces the document. -/
theorem c9_witness :
    scrape_website "https://example.com" (FetchResult.ok ["The sky is blue.", ""])
      = (some sampleDoc, none) ∧
    ({ readyState with messages := [{ role := "user", content := "old" }] } : SessionState).chain.isSome ∧
    (rerun { readyState with messages := [{ role := "user", content := "old" }] } none
        (UAction.scrapeUrl "https://example.com"
          (FetchResult.ok ["The sky is blue.", ""]))).state.messages
      = [{ role := "user", content := "old" }] ∧
    (rerun { readyState with messages := [{ role := "user", content := "old" }] } none
        (UAction.scrapeUrl "https://example.com"
          (FetchResult.ok ["The sky is blue.", ""]))).state.scraped_data
      = some sampleDoc := by
  have h := c9_success_keeps_history
    { readyState with messages := [{ role := "user", content := "old" }] } none
    "https://example.com" (FetchResult.ok ["The sky is blue.", ""])
    "doc.pdf" (PdfResult.ok [some "Hello PDF"]) sampleDoc
    { page_content := "Hello PDF", source := "doc.pdf" }
    (by decide) (by decide) (Or.inl rfl)
  exact ⟨by decide, rfl, h.1.1, h.1.2⟩

/-- C10: the Ask operation is not atomic with respect to inference failure:
the user message is appended to the history and the prompt is sent before
the inference result is consumed, so when the inference call raises, the
history has already been extended — it ends with a user message that has no
corresponding assistant message, and the exception escapes `main`. -/
theorem c10_ask_not_atomic (s : SessionState) (envKey : Option String)
    (q e : String) (d : Document) (tmpl : String)
    (hq : q ≠ "") (hdoc : s.scraped_data.isSome = true)
    (hdata : s.data = some d) (htmpl : s.template = some tmpl)
    (hinit : s.chain.isSome ∨ envKey.isSome) :
    (rerun s envKey (UAction.ask q (Except.error e))).state.messages
      = s.messages ++ [{ role := "user", content := q }] ∧
    (rerun s envKey (UAction.ask q (Except.error e))).promptsSent
      = [formatPrompt tmpl d.page_content q] ∧
    (rerun s envKey (UAction.ask q (Except.error e))).uncaughtExn = some e := by
  cases hch : s.chain with
  | some k => simp [rerun, hch, runBody, hdoc, hq, hdata, htmpl]
  | none =>
    cases henv : envKey with
    | some k =>
      simp [rerun, hch, henv, initialize_groq_chain, runBody, hdoc, hq, hdata, htmpl]
    | none => rcases hinit with h | h <;> simp [hch, henv] at h

/-- C10 witness: in a Ready session, a question whose inference call raises
leaves the history ending with the unanswered user message. -/
theorem c10_witness :
    ("hi" : String) ≠ "" ∧
    readyState.scraped_data.isSome = true ∧
    readyState.data = some sampleDoc ∧
    readyState.template = some promptTemplate ∧
    (readyState.chain.isSome ∨ (none : Option String).isSome) ∧
    (rerun readyState none (UAction.ask "hi" (Except.error "APIConnectionError"))).state.messages
      = readyState.messages ++ [{ role := "user", content := "hi" }] ∧
    (rerun readyState none (UAction.ask "hi" (Except.error "APIConnectionError"))).promptsSent
      = [formatPrompt promptTemplate sampleDoc.page_content "hi"] ∧
    (rerun readyState none (UAction.ask "hi" (Except.error "APIConnectionError"))).uncaughtExn
      = some "APIConnectionError" := by
  have h := c10_ask_not_atomic readyState none "hi" "APIConnectionError"
    sampleDoc promptTemplate (by decide) rfl rfl rfl (Or.inl rfl)
  exact ⟨by decide, rfl, rfl, rfl, Or.inl rfl, h.1, h.2.1, h.2.2⟩

theorem data_openTag : "<think>".data = openTag := rfl

theorem data_closeTag : "</think>".data = closeTag := rfl

theorem hasSeg_cons_false {pat : List Char} {c : Char} {cs : List Char}
    (h : hasSeg pat (c :: cs) = false) :
    pat.isPrefixOf (c :: cs) = false ∧ hasSeg pat cs = false := by
  simpa [hasSeg] using h

theorem hasSeg_of_isPrefixOf {pat l : List Char} (h : pat.isPrefixOf l = true) :
    hasSeg pat l = true := by
  cases l with
  | nil => simpa [hasSeg] using h
  | cons c cs => simp [hasSeg, h]

theorem isPrefixOf_eq_true_iff {l1 l2 : List Char} :
    l1.isPrefixOf l2 = true ↔ l1 <+: l2 := List.isPrefixOf_iff_prefix

theorem no_span (pat : List Char)
    (hbf : ∀ k, k < pat.length → 0 < k →
      pat ≠ pat.take k ++ pat.take (pat.length - k))
    (v R : List Char) (hv : hasSeg pat v = false) (hvne : v ≠ []) :
    pat.isPrefixOf (v ++ (pat ++ R)) = false := by
  by_contra hcon
  rw [Bool.not_eq_false, isPrefixOf_eq_true_iff] at hcon
  obtain ⟨t, ht⟩ := hcon
  have htake := congrArg (List.take pat.length) ht
  rw [List.take_left] at htake
  rcases le_or_lt pat.length v.length with hk | hk
  · rw [List.take_append_eq_append_take] at htake
    rw [Nat.sub_eq_zero_of_le hk, List.take_zero, List.append_nil] at htake
    have hpre : pat.isPrefixOf v = true := by
      rw [isPrefixOf_eq_true_iff, htake]
      exact List.take_prefix pat.length v
    rw [hasSeg_of_isPrefixOf hpre] at hv
    cases hv
  · rw [List.take_append_eq_append_take,
      List.take_of_length_le (Nat.le_of_lt hk),
      List.take_append_eq_append_take,
      Nat.sub_eq_zero_of_le (Nat.sub_le pat.length v.length),
      List.take_zero, List.append_nil] at htake
    have hv_eq : v = pat.take v.length := by
      have h2 := congrArg (List.take v.length) htake
      rw [List.take_left] at h2
      exact h2.symm
    have hpos : 0 < v.length := List.length_pos.mpr hvne
    refine hbf v.length hk hpos ?_
    rw [← hv_eq]
    exact htake

theorem openTag_no_span (v R : List Char) (hv : hasSeg openTag v = false)
    (hvne : v ≠ []) : openTag.isPrefixOf (v ++ (openTag ++ R)) = false :=
  no_span openTag (by decide) v R hv hvne

theorem closeTag_no_span (v R : List Char) (hv : hasSeg closeTag v = false)
    (hvne : v ≠ []) : closeTag.isPrefixOf (v ++ (closeTag ++ R)) = false :=
  no_span closeTag (by decide) v R hv hvne

theorem dropThroughClose_pos {l : List Char} (h : closeTag.isPrefixOf l = true) :
    dropThroughClose l = some (l.drop closeTag.length) := by
  cases l with
  | nil =>
    rw [isPrefixOf_eq_true_iff, List.prefix_nil] at h
    exact absurd h (by decide)
  | cons c cs => simp [dropThroughClose, h]

theorem dropThroughClose_cons_neg {c : Char} {cs : List Char}
    (h : closeTag.isPrefixOf (c :: cs) = false) :
    dropThroughClose (c :: cs) = dropThroughClose cs := by
  simp [dropThroughClose, h]

theorem dropThroughClose_append (t R : List Char)
    (ht : hasSeg closeTag t = false) :
    dropThroughClose (t ++ (closeTag ++ R)) = some R := by
  induction t with
  | nil =>
    rw [List.nil_append]
    rw [dropThroughClose_pos (by
      rw [isPrefixOf_eq_true_iff]; exact ⟨R, rfl⟩)]
    rw [List.drop_left]
  | cons c t' ih =>
    obtain ⟨_, h2⟩ := hasSeg_cons_false ht
    have hpre := closeTag_no_span (c :: t') R ht (by simp)
    rw [List.cons_append] at hpre
    rw [List.cons_append, dropThroughClose_cons_neg hpre]
    exact ih h2

theorem dropThroughClose_length : ∀ {l r : List Char},
    dropThroughClose l = some r → r.length < l.length := by
  intro l
  induction l with
  | nil => intro r h; simp [dropThroughClose] at h
  | cons c cs ih =>
    intro r h
    by_cases hp : closeTag.isPrefixOf (c :: cs) = true
    · rw [dropThroughClose_pos hp, Option.some_inj] at h
      rw [← h, List.length_drop]
      have : closeTag.length = 8 := rfl
      simp only [List.length_cons]
      omega
    · rw [Bool.not_eq_true] at hp
      rw [dropThroughClose_cons_neg hp] at h
      exact Nat.lt_trans (ih h) (by simp)

theorem removeThinkAux_cons_neg {c : Char} {cs : List Char} {fuel : Nat}
    (h : openTag.isPrefixOf (c :: cs) = false) :
    removeThinkAux (fuel + 1) (c :: cs) = c :: removeThinkAux fuel cs := by
  simp [removeThinkAux, h]

theorem removeThinkAux_cons_pos {c : Char} {cs rest : List Char} {fuel : Nat}
    (h1 : openTag.isPrefixOf (c :: cs) = true)
    (h2 : dropThroughClose ((c :: cs).drop openTag.length) = some rest) :
    removeThinkAux (fuel + 1) (c :: cs) = removeThinkAux fuel rest := by
  simp [removeThinkAux, h1, h2]

theorem removeThinkAux_no_open : ∀ (fuel : Nat) (l : List Char),
    l.length ≤ fuel → hasSeg openTag l = false → removeThinkAux fuel l = l := by
  intro fuel
  induction fuel with
  | zero => intro l _ _; rfl
  | succ fuel ih =>
    intro l h1 h2
    cases l with
    | nil => rfl
    | cons c cs =>
      obtain ⟨hp, hs⟩ := hasSeg_cons_false h2
      rw [removeThinkAux_cons_neg hp,
        ih cs (by simp only [List.length_cons] at h1; omega) hs]

theorem removeThinkAux_append : ∀ (v : List Char) (fuel : Nat) (R R' : List Char),
    (v ++ R).length ≤ fuel → hasSeg openTag v = false →
    R = openTag ++ R' →
    removeThinkAux fuel (v ++ R) = v ++ removeThinkAux (fuel - v.length) R := by
  intro v
  induction v with
  | nil => intro fuel R R' _ _ _; simp
  | cons c v' ih =>
    intro fuel R R' h1 h2 h3
    cases fuel with
    | zero =>
      simp only [List.length_append, List.length_cons] at h1
      omega
    | succ f =>
      obtain ⟨_, hs⟩ := hasSeg_cons_false h2
      subst h3
      have hpre := openTag_no_span (c :: v') R' h2 (by simp)
      rw [List.cons_append] at hpre
      rw [List.cons_append, removeThinkAux_cons_neg hpre,
        ih f (openTag ++ R') R'
          (by simp only [List.cons_append, List.length_append, List.length_cons] at h1 ⊢; omega)
          hs rfl]
      simp [Nat.succ_sub_succ]

theorem removeThinkAux_pos {l rest : List Char} {fuel : Nat} (hne : l ≠ [])
    (h1 : openTag.isPrefixOf l = true)
    (h2 : dropThroughClose (l.drop openTag.length) = some rest) :
    removeThinkAux (fuel + 1) l = removeThinkAux fuel rest := by
  cases l with
  | nil => cases hne rfl
  | cons c cs => exact removeThinkAux_cons_pos h1 h2

theorem removeThinkAux_seg (fuel : Nat) (t R : List Char)
    (ht : hasSeg closeTag t = false) (hfuel : 0 < fuel) :
    removeThinkAux fuel (openTag ++ (t ++ (closeTag ++ R)))
      = removeThinkAux (fuel - 1) R := by
  obtain ⟨f, rfl⟩ : ∃ f, fuel = f + 1 := ⟨fuel - 1, by omega⟩
  have h1 : openTag.isPrefixOf (openTag ++ (t ++ (closeTag ++ R))) = true := by
    rw [isPrefixOf_eq_true_iff]
    exact ⟨t ++ (closeTag ++ R), rfl⟩
  have h2 : dropThroughClose ((openTag ++ (t ++ (closeTag ++ R))).drop openTag.length)
      = some R := by
    rw [List.drop_left]
    exact dropThroughClose_append t R ht
  have hne : openTag ++ (t ++ (closeTag ++ R)) ≠ [] := by
    intro h
    have hl := congrArg List.length h
    rw [List.length_append] at hl
    have ho : openTag.length = 7 := rfl
    rw [ho] at hl
    simp only [List.length_nil] at hl
    omega
  rw [removeThinkAux_pos hne h1 h2, Nat.add_sub_cancel]

theorem removeThinkAux_render : ∀ (segs : List (String × String)) (tail : String)
    (fuel : Nat),
    (renderSegs segs tail).data.length ≤ fuel →
    (∀ s ∈ segs, hasSeg openTag s.1.data = false ∧ hasSeg closeTag s.2.data = false) →
    hasSeg openTag tail.data = false →
    removeThinkAux fuel (renderSegs segs tail).data = (visibleSegs segs tail).data := by
  intro segs
  induction segs with
  | nil =>
    intro tail fuel h1 _ h3
    exact removeThinkAux_no_open fuel tail.data h1 h3
  | cons seg rest ih =>
    intro tail fuel h1 h2 h3
    obtain ⟨v, t⟩ := seg
    have hv := (h2 (v, t) (List.mem_cons_self _ _)).1
    have ht := (h2 (v, t) (List.mem_cons_self _ _)).2
    have hdata : (renderSegs ((v, t) :: rest) tail).data
        = v.data ++ (openTag ++ (t.data ++ (closeTag ++ (renderSegs rest tail).data))) := by
      simp [renderSegs, String.data_append, data_openTag, data_closeTag]
      rfl
    rw [hdata] at h1
    have hlen : v.data.length + (openTag.length + (t.data.length
        + (closeTag.length + (renderSegs rest tail).data.length))) ≤ fuel := by
      simpa [List.length_append] using h1
    have ho : openTag.length = 7 := rfl
    have hc : closeTag.length = 8 := rfl
    rw [hdata,
      removeThinkAux_append v.data fuel
        (openTag ++ (t.data ++ (closeTag ++ (renderSegs rest tail).data)))
        (t.data ++ (closeTag ++ (renderSegs rest tail).data)) h1 hv rfl,
      removeThinkAux_seg (fuel - v.data.length) t.data
        (renderSegs rest tail).data ht (by omega),
      ih tail (fuel - v.data.length - 1) (by omega)
        (fun s hs => h2 s (List.mem_cons_of_mem _ hs)) h3]
    simp [visibleSegs, String.data_append]

theorem removeThink_render (segs : List (String × String)) (tail : String)
    (h2 : ∀ s ∈ segs, hasSeg openTag s.1.data = false ∧ hasSeg closeTag s.2.data = false)
    (h3 : hasSeg openTag tail.data = false) :
    removeThink (renderSegs segs tail).data = (visibleSegs segs tail).data :=
  removeThinkAux_render segs tail (renderSegs segs tail).data.length le_rfl h2 h3

/-- C7: for every raw model response assembled from visible text and
delimited internal-reasoning ("thinking") blocks — the visible parts free
of the open delimiter, the block bodies free of the close delimiter, and
bodies possibly spanning newlines — post-processing removes every thinking
block together with its delimiters and trims surrounding whitespace from
the result; this post-processed text is exactly what is shown to the user
and what is stored as the assistant message in the history. -/
theorem c7_think_removed (segs : List (String × String)) (tail : String)
    (hsegs : ∀ p ∈ segs,
      hasSeg openTag p.1.data = false ∧ hasSeg closeTag p.2.data = false)
    (htail : hasSeg openTag tail.data = false)
    (s : SessionState) (envKey : Option String) (q : String) (d : Document)
    (tmpl : String)
    (hq : q ≠ "") (hdoc : s.scraped_data.isSome = true)
    (hdata : s.data = some d) (htmpl : s.template = some tmpl)
    (hinit : s.chain.isSome ∨ envKey.isSome) :
    answer_no_think (renderSegs segs tail) = trimStr (visibleSegs segs tail) ∧
    (rerun s envKey
        (UAction.ask q (Except.ok (renderSegs segs tail)))).answersShown
      = [trimStr (visibleSegs segs tail)] ∧
    (rerun s envKey
        (UAction.ask q (Except.ok (renderSegs segs tail)))).state.messages
      = s.messages ++ [{ role := "user", content := q },
          { role := "assistant", content := trimStr (visibleSegs segs tail) }] := by
  have hans : answer_no_think (renderSegs segs tail)
      = trimStr (visibleSegs segs tail) := by
    show String.mk (stripWs (removeThink (renderSegs segs tail).data)) = _
    rw [removeThink_render segs tail hsegs htail]
    rfl
  refine ⟨hans, ?_⟩
  cases hch : s.chain with
  | some k =>
    constructor
    · simp [rerun, hch, runBody, hdoc, hq, hdata, htmpl, hans]
    · simp [rerun, hch, runBody, hdoc, hq, hdata, htmpl, hans]
  | none =>
    cases henv : envKey with
    | some k =>
      constructor
      · simp [rerun, hch, henv, initialize_groq_chain, runBody, hdoc, hq,
          hdata, htmpl, hans]
      · simp [rerun, hch, henv, initialize_groq_chain, runBody, hdoc, hq,
          hdata, htmpl, hans]
    | none => rcases hinit with h | h <;> simp [hch, henv] at h

/-- C7 witness: the raw response
`"Sure! <think>internal\nreasoning</think>The answer is 42."` (thinking
block spanning a newline) is stored and shown as
`"Sure! The answer is 42."`. -/
theorem c7_witness :
    (∀ p ∈ [(("Sure! " : String), ("internal\nreasoning" : String))],
      hasSeg openTag p.1.data = false ∧ hasSeg closeTag p.2.data = false) ∧
    hasSeg openTag ("The answer is 42." : String).data = false ∧
    trimStr (visibleSegs [("Sure! ", "internal\nreasoning")] "The answer is 42.")
      = "Sure! The answer is 42." ∧
    answer_no_think (renderSegs [("Sure! ", "internal\nreasoning")] "The answer is 42.")
      = trimStr (visibleSegs [("Sure! ", "internal\nreasoning")] "The answer is 42.") ∧
    (rerun readyState (some "k")
        (UAction.ask "hi" (Except.ok
          (renderSegs [("Sure! ", "internal\nreasoning")] "The answer is 42.")))).state.messages
      = readyState.messages ++ [{ role := "user", content := "hi" },
          { role := "assistant",
            content := trimStr
              (visibleSegs [("Sure! ", "internal\nreasoning")] "The answer is 42.") }] := by
  have h := c7_think_removed [("Sure! ", "internal\nreasoning")] "The answer is 42."
    (by decide) (by decide) readyState (some "k") "hi" sampleDoc promptTemplate
    (by decide) rfl rfl rfl (Or.inl rfl)
  exact ⟨by decide, by decide, by decide, h.1, h.2.2⟩

example : cleanText (joinSp ["The sky is blue.", ""]) = "The sky is blue." := by
  decide

example : scrape_website "https://example.com" (.ok ["The sky is blue.", ""]) =
    (some { page_content := "The sky is blue."
            source := "https://example.com" }, none) := by
  decide

example : scrape_website "u" (.ok [" ", "\t\n"]) =
    (none, some "No meaningful content found on the page.") := by
  decide

example : scrape_pdf "f.pdf" (.ok [none, some "  "]) =
    (none, some "No text found in the PDF.") := by
  decide

example : cleanText "a\u00A0b" = "a b" := by
  decide

example : cleanText "\u00A0" = "" := by
  decide

example : scrape_website "https://example.com" (.ok ["\u00A0"]) =
    (none, some "No meaningful content found on the page.") := by
  decide

example : scrape_pdf "f.pdf" (.ok [some "\u00A0"]) =
    (none, some "No text found in the PDF.") := by
  decide

example : trimStr "ok\u00A0" = "ok" := by
  decide

example : formatPrompt "Context: \x7bcontext\x7d Q: \x7bquestion\x7d"
    "has \x7bquestion\x7d inside" "Q?"
    = "Context: has \x7bquestion\x7d inside Q: Q?" := by
  decide
